import Mathlib

/-!
Verification development for the FaceGuard camera-resource core.

The Python sources `src/core/camera_manager.py` and
`src/gui/recognition_screen.py` are shallowly embedded below: the
singleton camera manager becomes a record `Mgr` transformed by pure
functions, the physical device becomes an explicit oracle recording
whether each open attempt and each read succeeds, and timestamps are
threaded as explicit `Nat` arguments.  Ghost event traces (`Ev`) record
observable actions (handle creation, sleeps, teardowns) so that counting
claims can be stated.
-/

namespace FaceGuard

/-- States of the camera, from the `CameraState` enum. -/
inductive CameraState where
  | DISCONNECTED
  | INITIALIZING
  | CONNECTED
  | ERROR
deriving DecidableEq, Repr

/-- A BGR pixel. -/
abbrev Pix := Nat × Nat × Nat

/-- A frame: rows of BGR pixels (the numpy array of the source). -/
abbrev Frame := List (List Pix)

/-- `frame.size` of numpy: total number of scalar entries. -/
def Frame.size (f : Frame) : Nat := 3 * (f.map List.length).sum

/-- The mutable state of `CameraManagerSingleton`.  `capOpen` models the
`cap` field: `none` is `cap is None`, `some b` is a handle with
`isOpened() = b`. -/
structure Mgr where
  state : CameraState
  capOpen : Option Bool
  lastFrame : Option Frame
  frameTimestamp : Nat
  activeUsers : Finset String
  isReleasing : Bool
  enhancementEnabled : Bool
deriving DecidableEq

/-- The state built by `__init__`. -/
def Mgr.start : Mgr :=
  { state := .DISCONNECTED
    capOpen := none
    lastFrame := none
    frameTimestamp := 0
    activeUsers := ∅
    isReleasing := false
    enhancementEnabled := true }

/-- `register_user`: add the id to `_active_users`. -/
def registerUser (u : String) (s : Mgr) : Mgr :=
  { s with activeUsers := insert u s.activeUsers }

/-- `_cleanup_camera_resources` on the non-exceptional device path:
release the handle, set `cap = None`, state `DISCONNECTED`. -/
def cleanupCameraResources (s : Mgr) : Mgr :=
  { s with capOpen := none, state := .DISCONNECTED }

/-- `_release_camera_internal`: raise `_is_releasing`, clean up, clear
the frame cache, drop the flag. -/
def releaseCameraInternal (s : Mgr) : Mgr :=
  let s1 := cleanupCameraResources { s with isReleasing := true }
  { s1 with lastFrame := none, frameTimestamp := 0, isReleasing := false }

/-- `unregister_user`: discard the id; when no users remain and no
release is in progress, release the camera. -/
def unregisterUser (u : String) (s : Mgr) : Mgr :=
  let s1 := { s with activeUsers := s.activeUsers.erase u }
  if s1.activeUsers = ∅ ∧ ¬ s1.isReleasing then releaseCameraInternal s1 else s1

/-- `force_release_camera`: clear `_active_users`, then release. -/
def forceReleaseCamera (s : Mgr) : Mgr :=
  releaseCameraInternal { s with activeUsers := ∅ }

/-- C7: `force_release` from any manager state leaves the consumer set
empty, the state `DISCONNECTED` with the handle and frame cache cleared,
and running it twice gives the same final state as running it once. -/
theorem forceRelease_disconnects_and_idem (s : Mgr) :
    (forceReleaseCamera s).activeUsers = ∅ ∧
    (forceReleaseCamera s).state = .DISCONNECTED ∧
    (forceReleaseCamera s).capOpen = none ∧
    (forceReleaseCamera s).lastFrame = none ∧
    (forceReleaseCamera s).isReleasing = false ∧
    forceReleaseCamera (forceReleaseCamera s) = forceReleaseCamera s := by
  refine ⟨rfl, rfl, rfl, rfl, rfl, ?_⟩
  simp [forceReleaseCamera, releaseCameraInternal, cleanupCameraResources]

/-- Ghost events recording observable device actions. -/
inductive Ev where
  | createCap (attempt : Nat) (opened : Bool)
  | sleepAttemptGap
  | sleepReadGap
  | testReadEv (attempt : Nat) (k : Nat) (ok : Bool)
  | teardown
deriving DecidableEq

/-- Behaviour of the physical device: whether the handle created on a
given attempt reports `isOpened()`, and what the k-th verification read
of a given attempt yields (`none` is `ret == False`). -/
structure DeviceOracle where
  opens : Nat → Bool
  testRead : Nat → Nat → Option Frame

/-- `max_init_attempts` from `__init__`. -/
def maxInitAttempts : Nat := 3

/-- `_configure_camera_properties` on the non-exceptional device path:
succeeds unless a release is in progress or the handle is gone. -/
def configureCameraProperties (s : Mgr) : Bool :=
  !s.isReleasing && s.capOpen.isSome

/-- The read loop of `_test_camera_capture`: up to `fuel` reads starting
at read index `k`; the first frame with `ret` true and positive size is
cached and accepted. -/
def testCapLoop (D : DeviceOracle) (attempt now : Nat) (s : Mgr) :
    Nat → Nat → Bool × Mgr × List Ev
  | _, 0 => (false, s, [])
  | k, fuel+1 =>
    if s.isReleasing then (false, s, [])
    else if s.capOpen ≠ some true then (false, s, [])
    else
      match D.testRead attempt k with
      | some f =>
        if 0 < f.size then
          (true, { s with lastFrame := some f, frameTimestamp := now },
            [.testReadEv attempt k true])
        else
          let r := testCapLoop D attempt now s (k+1) fuel
          (r.1, r.2.1, .testReadEv attempt k false :: .sleepReadGap :: r.2.2)
      | none =>
        let r := testCapLoop D attempt now s (k+1) fuel
        (r.1, r.2.1, .testReadEv attempt k false :: .sleepReadGap :: r.2.2)

/-- `_test_camera_capture`: five verification reads. -/
def testCameraCapture (D : DeviceOracle) (attempt now : Nat) (s : Mgr) :
    Bool × Mgr × List Ev :=
  testCapLoop D attempt now s 0 5

/-- The `if attempt > 0: time.sleep(1.0)` pause: one sleep of 1 time
unit before every attempt but the first. -/
def attemptGap (attempt : Nat) : List Ev :=
  if 0 < attempt then [.sleepAttemptGap] else []

/-- The `for attempt in range(self.max_init_attempts)` retry loop of
`initialize_camera`, with `r` attempts remaining.  Each attempt sleeps 1
time unit (when not the first), creates the handle, configures it, and
verifies capture; exhaustion sets state `ERROR` and returns false. -/
def initAttempts (D : DeviceOracle) (now : Nat) :
    Mgr → Nat → Nat → Bool × Mgr × List Ev
  | s, _, 0 => (false, { s with state := .ERROR }, [])
  | s, attempt, r+1 =>
    let gap : List Ev := attemptGap attempt
    if s.isReleasing then (false, s, gap)
    else
      let opened := D.opens attempt
      let s1 : Mgr := { s with capOpen := some opened }
      let evs := gap ++ [Ev.createCap attempt opened]
      if opened = false then
        let r' := initAttempts D now (cleanupCameraResources s1) (attempt+1) r
        (r'.1, r'.2.1, evs ++ r'.2.2)
      else if configureCameraProperties s1 = false then
        let r' := initAttempts D now (cleanupCameraResources s1) (attempt+1) r
        (r'.1, r'.2.1, evs ++ r'.2.2)
      else
        let t := testCameraCapture D attempt now s1
        if t.1 then
          if t.2.1.isReleasing = false then
            (true, { t.2.1 with state := .CONNECTED }, evs ++ t.2.2)
          else (false, cleanupCameraResources t.2.1, evs ++ t.2.2)
        else
          let r' := initAttempts D now (cleanupCameraResources t.2.1) (attempt+1) r
          (r'.1, r'.2.1, evs ++ t.2.2 ++ r'.2.2)

/-- `initialize_camera`: optionally register the consumer, short-circuit
when already connected, else clean up and run the retry loop. -/
def initCamera (D : DeviceOracle) (now : Nat) (u : Option String) (s0 : Mgr) :
    Bool × Mgr × List Ev :=
  let s := match u with
    | some uid => registerUser uid s0
    | none => s0
  if s.isReleasing then (false, s, [])
  else if s.state = .CONNECTED ∧ s.capOpen = some true then (true, s, [])
  else
    initAttempts D now { cleanupCameraResources s with state := .INITIALIZING }
      0 maxInitAttempts

/-- `reinitialize_camera`: refuse mid-release, else run
`initialize_camera` with no consumer id. -/
def reinitCamera (D : DeviceOracle) (now : Nat) (s : Mgr) :
    Bool × Mgr × List Ev :=
  if s.isReleasing then (false, s, []) else initCamera D now none s

/-- Is the event a handle creation (one per open attempt)? -/
def Ev.isCreate : Ev → Bool
  | .createCap _ _ => true
  | _ => false

/-- Is the event the 1-time-unit sleep between open attempts? -/
def Ev.isGap : Ev → Bool
  | .sleepAttemptGap => true
  | _ => false

/-- Is the event a verification read of open attempt `a`? -/
def Ev.isReadOf (a : Nat) : Ev → Bool
  | .testReadEv a' _ _ => a' == a
  | _ => false

/-- Is the event a device teardown? -/
def Ev.isTeardown : Ev → Bool
  | .teardown => true
  | _ => false

/-- Number of handle-creation events in a trace. -/
def countCreate (evs : List Ev) : Nat := (evs.filter Ev.isCreate).length

/-- Number of inter-attempt sleeps in a trace. -/
def countGap (evs : List Ev) : Nat := (evs.filter Ev.isGap).length

/-- Number of verification reads of attempt `a` in a trace. -/
def countReads (a : Nat) (evs : List Ev) : Nat :=
  (evs.filter (Ev.isReadOf a)).length

/-- Number of teardown events in a trace. -/
def countTeardown (evs : List Ev) : Nat := (evs.filter Ev.isTeardown).length

/-- A device that never opens: permanent simulated failure. -/
def failOracle : DeviceOracle :=
  { opens := fun _ => false, testRead := fun _ _ => none }

/-- A device that opens and whose first attempt yields an empty frame,
then a failed read, then a good frame. -/
def acceptOracle : DeviceOracle :=
  { opens := fun _ => true
    testRead := fun _ k =>
      if k = 0 then some [] else if k = 1 then none else some [[(1, 2, 3)]] }

@[simp]
theorem attemptGap_isCreate_filter (a : Nat) (p : Ev → Bool)
    (h : p .sleepAttemptGap = false) : (attemptGap a).filter p = [] := by
  unfold attemptGap
  split <;> simp [h]

/-- A trace-count bound: the verification loop with `fuel` reads left
emits at most `fuel` events satisfying `p`, provided `p` ignores the
short read-gap sleeps. -/
theorem testCapLoop_filter_le (D : DeviceOracle) (attempt now : Nat) (s : Mgr)
    (p : Ev → Bool) (hgap : p .sleepReadGap = false) :
    ∀ fuel k, ((testCapLoop D attempt now s k fuel).2.2.filter p).length ≤ fuel := by
  intro fuel
  induction fuel with
  | zero => intro k; simp [testCapLoop]
  | succ n ih =>
    intro k
    by_cases hrel : s.isReleasing
    · simp [testCapLoop, hrel]
    · by_cases hcap : s.capOpen = some true
      · cases hread : D.testRead attempt k with
        | none =>
          simp only [testCapLoop, hrel, if_false, hcap, hread]
          simp only [ne_eq, not_true_eq_false, if_false, ite_false]
          simp [List.filter, hgap]
          split <;> simp [Nat.succ_le_succ (ih (k+1)), Nat.le_succ_of_le (ih (k+1))]
        | some f =>
          by_cases hsz : 0 < f.size
          · simp only [testCapLoop, hrel, hcap, hread]
            simp [hsz, List.filter]
            split <;> simp
          · simp only [testCapLoop, hrel, hcap, hread]
            simp [hsz, List.filter, hgap]
            split <;> simp [Nat.succ_le_succ (ih (k+1)), Nat.le_succ_of_le (ih (k+1))]
      · simp [testCapLoop, hrel, hcap]

/-- The verification loop emits no event satisfying `p` when `p` ignores
read-gap sleeps and all reads of this attempt. -/
theorem testCapLoop_filter_zero (D : DeviceOracle) (attempt now : Nat) (s : Mgr)
    (p : Ev → Bool) (hgap : p .sleepReadGap = false)
    (hread : ∀ j ok, p (.testReadEv attempt j ok) = false) :
    ∀ fuel k, (testCapLoop D attempt now s k fuel).2.2.filter p = [] := by
  intro fuel
  induction fuel with
  | zero => intro k; simp [testCapLoop]
  | succ n ih =>
    intro k
    by_cases hrel : s.isReleasing
    · simp [testCapLoop, hrel]
    · by_cases hcap : s.capOpen = some true
      · cases hread' : D.testRead attempt k with
        | none =>
          simp only [testCapLoop, hrel, hcap, hread']
          simp [List.filter, hgap, hread, ih (k+1)]
        | some f =>
          by_cases hsz : 0 < f.size
          · simp only [testCapLoop, hrel, hcap, hread']
            simp [hsz, List.filter, hread]
          · simp only [testCapLoop, hrel, hcap, hread']
            simp [hsz, List.filter, hgap, hread, ih (k+1)]
      · simp [testCapLoop, hrel, hcap]

/-- The verification loop only ever updates the frame cache: the
resulting manager is the input with some `lastFrame`/`frameTimestamp`. -/
theorem testCapLoop_shape (D : DeviceOracle) (attempt now : Nat)
    (st : CameraState) (cap : Option Bool) (lf0 : Option Frame) (ts0 : Nat)
    (au : Finset String) (ir ee : Bool) :
    ∀ fuel k, ∃ lf ts,
      (testCapLoop D attempt now ⟨st, cap, lf0, ts0, au, ir, ee⟩ k fuel).2.1 =
        ⟨st, cap, lf, ts, au, ir, ee⟩ := by
  cases ir with
  | true =>
    intro fuel k
    cases fuel <;> exact ⟨lf0, ts0, by simp [testCapLoop]⟩
  | false =>
    by_cases hcap : cap = some true
    · subst hcap
      intro fuel
      induction fuel with
      | zero => intro k; exact ⟨lf0, ts0, rfl⟩
      | succ n ih =>
        intro k
        cases hread : D.testRead attempt k with
        | none =>
          obtain ⟨lf, ts, h⟩ := ih (k + 1)
          exact ⟨lf, ts, by simp [testCapLoop, hread, h]⟩
        | some f =>
          by_cases hsz : 0 < f.size
          · exact ⟨some f, now, by simp [testCapLoop, hread, hsz]⟩
          · obtain ⟨lf, ts, h⟩ := ih (k + 1)
            exact ⟨lf, ts, by simp [testCapLoop, hread, hsz, h]⟩
    · intro fuel k
      cases fuel <;> exact ⟨lf0, ts0, by simp [testCapLoop, hcap]⟩

/-- The retry loop with `r` attempts remaining emits at most `r` events
satisfying `p`, when `p` ignores sleeps and verification reads (one
handle creation per attempt). -/
theorem initAttempts_filter_le (D : DeviceOracle) (now : Nat) (p : Ev → Bool)
    (hg1 : p .sleepAttemptGap = false) (hg2 : p .sleepReadGap = false)
    (hread : ∀ a j ok, p (.testReadEv a j ok) = false) :
    ∀ r s attempt, ((initAttempts D now s attempt r).2.2.filter p).length ≤ r := by
  intro r
  induction r with
  | zero => intro s attempt; simp [initAttempts]
  | succ n ih =>
    intro s attempt
    have hgap : ∀ a : Nat, (attemptGap a).filter p = [] :=
      fun a => attemptGap_isCreate_filter a p hg1
    have htz : ∀ s' : Mgr, (testCapLoop D attempt now s' 0 5).2.2.filter p = [] :=
      fun s' => testCapLoop_filter_zero D attempt now s' p hg2
        (fun j ok => hread attempt j ok) 5 0
    obtain ⟨st, cap, lf, ts, au, ir, ee⟩ := s
    cases ir with
    | true => simp [initAttempts, hgap]
    | false =>
      cases hop : D.opens attempt with
      | false =>
        have h1 := ih ⟨.DISCONNECTED, none, lf, ts, au, false, ee⟩ (attempt + 1)
        cases hpc : p (.createCap attempt false) <;>
          simp [initAttempts, hop, hgap, hpc, cleanupCameraResources,
            List.filter_append] <;>
          omega
      | true =>
        obtain ⟨lf', ts', hshape⟩ :=
          testCapLoop_shape D attempt now st (some true) lf ts au false ee 5 0
        have h1 := ih ⟨.DISCONNECTED, none, lf', ts', au, false, ee⟩ (attempt + 1)
        cases hok : (testCapLoop D attempt now
            ⟨st, some true, lf, ts, au, false, ee⟩ 0 5).1 with
        | true =>
          cases hpc : p (.createCap attempt true) <;>
            simp [initAttempts, hop, hgap, hpc, htz, hok, hshape,
              configureCameraProperties, testCameraCapture, cleanupCameraResources,
              List.filter_append]
        | false =>
          cases hpc : p (.createCap attempt true) <;>
            simp [initAttempts, hop, hgap, hpc, htz, hok, hshape,
              configureCameraProperties, testCameraCapture, cleanupCameraResources,
              List.filter_append] <;>
            omega

/-- Attempts with index above `a` emit no verification read of attempt
`a`. -/
theorem initAttempts_reads_lt (D : DeviceOracle) (now a : Nat) :
    ∀ r s attempt, a < attempt →
      (initAttempts D now s attempt r).2.2.filter (Ev.isReadOf a) = [] := by
  intro r
  induction r with
  | zero => intro s attempt _; simp [initAttempts]
  | succ n ih =>
    intro s attempt hlt
    have hgap : ∀ a' : Nat, (attemptGap a').filter (Ev.isReadOf a) = [] :=
      fun a' => attemptGap_isCreate_filter a' _ rfl
    have hne : ∀ j ok, Ev.isReadOf a (.testReadEv attempt j ok) = false := by
      intro j ok
      simp only [Ev.isReadOf, beq_eq_false_iff_ne, ne_eq]
      omega
    have htz : ∀ s' : Mgr,
        (testCapLoop D attempt now s' 0 5).2.2.filter (Ev.isReadOf a) = [] :=
      fun s' => testCapLoop_filter_zero D attempt now s' _ rfl hne 5 0
    obtain ⟨st, cap, lf, ts, au, ir, ee⟩ := s
    cases ir with
    | true => simp [initAttempts, hgap]
    | false =>
      cases hop : D.opens attempt with
      | false =>
        have h1 := ih ⟨.DISCONNECTED, none, lf, ts, au, false, ee⟩ (attempt + 1)
          (Nat.lt_succ_of_lt hlt)
        simp [initAttempts, hop, hgap, cleanupCameraResources, Ev.isReadOf, h1,
          List.filter_append]
      | true =>
        obtain ⟨lf', ts', hshape⟩ :=
          testCapLoop_shape D attempt now st (some true) lf ts au false ee 5 0
        have h1 := ih ⟨.DISCONNECTED, none, lf', ts', au, false, ee⟩ (attempt + 1)
          (Nat.lt_succ_of_lt hlt)
        cases hok : (testCapLoop D attempt now
            ⟨st, some true, lf, ts, au, false, ee⟩ 0 5).1 <;>
          simp [initAttempts, hop, hgap, htz, hok, hshape, h1,
            configureCameraProperties, testCameraCapture, cleanupCameraResources,
            Ev.isReadOf, List.filter_append]

/-- Over the whole retry loop, at most 5 verification reads carry a given
attempt index: each attempt verifies by reading up to 5 frames. -/
theorem initAttempts_reads_le (D : DeviceOracle) (now a : Nat) :
    ∀ r s attempt,
      ((initAttempts D now s attempt r).2.2.filter (Ev.isReadOf a)).length ≤ 5 := by
  intro r
  induction r with
  | zero => intro s attempt; simp [initAttempts]
  | succ n ih =>
    intro s attempt
    have hgap : ∀ a' : Nat, (attemptGap a').filter (Ev.isReadOf a) = [] :=
      fun a' => attemptGap_isCreate_filter a' _ rfl
    rcases Nat.lt_trichotomy a attempt with hlt | heq | hgt
    · simp [initAttempts_reads_lt D now a (n + 1) s attempt hlt]
    · subst heq
      have hle : ∀ s' : Mgr,
          ((testCapLoop D a now s' 0 5).2.2.filter (Ev.isReadOf a)).length ≤ 5 :=
        fun s' => testCapLoop_filter_le D a now s' _ rfl 5 0
      have hz := initAttempts_reads_lt D now a n
      obtain ⟨st, cap, lf, ts, au, ir, ee⟩ := s
      cases ir with
      | true => simp [initAttempts, hgap]
      | false =>
        cases hop : D.opens a with
        | false =>
          have h1 := hz ⟨.DISCONNECTED, none, lf, ts, au, false, ee⟩ (a + 1)
            (Nat.lt_succ_self a)
          simp [initAttempts, hop, hgap, cleanupCameraResources, Ev.isReadOf, h1,
            List.filter_append]
        | true =>
          obtain ⟨lf', ts', hshape⟩ :=
            testCapLoop_shape D a now st (some true) lf ts au false ee 5 0
          have h1 := hz ⟨.DISCONNECTED, none, lf', ts', au, false, ee⟩ (a + 1)
            (Nat.lt_succ_self a)
          cases hok : (testCapLoop D a now
              ⟨st, some true, lf, ts, au, false, ee⟩ 0 5).1 <;>
            simp [initAttempts, hop, hgap, hok, hshape, h1,
              configureCameraProperties, testCameraCapture, cleanupCameraResources,
              Ev.isReadOf, List.filter_append, hle]
    · have hne : ∀ j ok, Ev.isReadOf a (.testReadEv attempt j ok) = false := by
        intro j ok
        simp only [Ev.isReadOf, beq_eq_false_iff_ne, ne_eq]
        omega
      have htz : ∀ s' : Mgr,
          (testCapLoop D attempt now s' 0 5).2.2.filter (Ev.isReadOf a) = [] :=
        fun s' => testCapLoop_filter_zero D attempt now s' _ rfl hne 5 0
      obtain ⟨st, cap, lf, ts, au, ir, ee⟩ := s
      cases ir with
      | true => simp [initAttempts, hgap]
      | false =>
        cases hop : D.opens attempt with
        | false =>
          have h1 := ih ⟨.DISCONNECTED, none, lf, ts, au, false, ee⟩ (attempt + 1)
          simp [initAttempts, hop, hgap, cleanupCameraResources, Ev.isReadOf,
            List.filter_append, h1]
        | true =>
          obtain ⟨lf', ts', hshape⟩ :=
            testCapLoop_shape D attempt now st (some true) lf ts au false ee 5 0
          have h1 := ih ⟨.DISCONNECTED, none, lf', ts', au, false, ee⟩ (attempt + 1)
          cases hok : (testCapLoop D attempt now
              ⟨st, some true, lf, ts, au, false, ee⟩ 0 5).1 <;>
            simp [initAttempts, hop, hgap, htz, hok, hshape, h1,
              configureCameraProperties, testCameraCapture, cleanupCameraResources,
              Ev.isReadOf, List.filter_append]

/-- `initialize_camera` either short-circuits (no events) or runs the
retry loop from attempt 0 with the full budget. -/
theorem initCamera_trace_cases (D : DeviceOracle) (now : Nat) (u : Option String)
    (s : Mgr) :
    (initCamera D now u s).2.2 = [] ∨
      ∃ s', (initCamera D now u s).2.2 =
        (initAttempts D now s' 0 maxInitAttempts).2.2 := by
  cases u with
  | none =>
    by_cases h1 : s.isReleasing
    · left; simp [initCamera, h1]
    · by_cases h2 : s.state = .CONNECTED ∧ s.capOpen = some true
      · left; simp [initCamera, h1, h2]
      · right
        exact ⟨{ cleanupCameraResources s with state := .INITIALIZING },
          by simp [initCamera, h1, h2]⟩
  | some uid =>
    by_cases h1 : s.isReleasing
    · left; simp [initCamera, registerUser, h1]
    · by_cases h2 : s.state = .CONNECTED ∧ s.capOpen = some true
      · left; simp [initCamera, registerUser, h1, h2]
      · right
        refine ⟨{ cleanupCameraResources (registerUser uid s) with
          state := .INITIALIZING }, ?_⟩
        simp only [initCamera]
        rw [if_neg (by simpa [registerUser] using h1),
          if_neg (by simpa [registerUser] using h2)]

/-- Any run of `initialize_camera` creates the capture handle at most
`max_init_attempts = 3` times. -/
theorem initCamera_create_le (D : DeviceOracle) (now : Nat) (u : Option String)
    (s : Mgr) : countCreate (initCamera D now u s).2.2 ≤ maxInitAttempts := by
  rcases initCamera_trace_cases D now u s with h | ⟨s', h⟩
  · simp [h, countCreate]
  · rw [countCreate, h]
    exact initAttempts_filter_le D now Ev.isCreate rfl rfl (fun _ _ _ => rfl)
      maxInitAttempts s' 0

/-- Any run of `initialize_camera` performs at most 5 verification reads
on any one attempt. -/
theorem initCamera_reads_le (D : DeviceOracle) (now : Nat) (u : Option String)
    (s : Mgr) (a : Nat) : countReads a (initCamera D now u s).2.2 ≤ 5 := by
  rcases initCamera_trace_cases D now u s with h | ⟨s', h⟩
  · simp [h, countReads]
  · rw [countReads, h]
    exact initAttempts_reads_le D now a maxInitAttempts s' 0

/-- Complete evaluation of `initialize_camera` on a device that never
opens: 3 attempts, 2 one-unit sleeps between them, state `ERROR`,
return `False`. -/
theorem initCamera_permFail (D : DeviceOracle) (now : Nat)
    (h : ∀ k, D.opens k = false) :
    initCamera D now none Mgr.start =
      (false, ⟨.ERROR, none, none, 0, ∅, false, true⟩,
        [.createCap 0 false, .sleepAttemptGap, .createCap 1 false,
          .sleepAttemptGap, .createCap 2 false]) := by
  have h0 := h 0
  have h1 := h 1
  have h2 := h 2
  simp [initCamera, initAttempts, maxInitAttempts, Mgr.start,
    cleanupCameraResources, attemptGap, h0, h1, h2]

/-- C3: `initialize_camera` attempts the open at most 3 times; each
attempt creates the handle, configures it, and verifies by reading up to
5 frames, accepting the first non-empty frame; it waits 1 time unit
between attempts; and when the device never opens, all 3 attempts fail,
the state becomes `ERROR` and the call returns false. -/
theorem initCamera_retry_spec (D : DeviceOracle) (now : Nat)
    (hfail : ∀ k, D.opens k = false) :
    (∀ (D' : DeviceOracle) (now' : Nat) (u : Option String) (s : Mgr),
        countCreate (initCamera D' now' u s).2.2 ≤ maxInitAttempts) ∧
    (∀ (D' : DeviceOracle) (now' : Nat) (u : Option String) (s : Mgr) (a : Nat),
        countReads a (initCamera D' now' u s).2.2 ≤ 5) ∧
    (initCamera D now none Mgr.start).1 = false ∧
    (initCamera D now none Mgr.start).2.1.state = .ERROR ∧
    countCreate (initCamera D now none Mgr.start).2.2 = maxInitAttempts ∧
    countGap (initCamera D now none Mgr.start).2.2 = maxInitAttempts - 1 ∧
    (initCamera acceptOracle 7 none Mgr.start).1 = true ∧
    (initCamera acceptOracle 7 none Mgr.start).2.1.state = .CONNECTED ∧
    (initCamera acceptOracle 7 none Mgr.start).2.1.lastFrame = some [[(1, 2, 3)]] ∧
    countReads 0 (initCamera acceptOracle 7 none Mgr.start).2.2 = 3 := by
  have hp := initCamera_permFail D now hfail
  refine ⟨initCamera_create_le, initCamera_reads_le, ?_, ?_, ?_, ?_, ?_, ?_, ?_, ?_⟩
  · rw [hp]
  · rw [hp]
  · rw [hp]; rfl
  · rw [hp]; rfl
  · rfl
  · rfl
  · rfl
  · rfl

/-- Witness for `initCamera_retry_spec` at the concrete never-opening
device. -/
theorem initCamera_retry_spec_witness :
    (initCamera failOracle 0 none Mgr.start).1 = false ∧
    (initCamera failOracle 0 none Mgr.start).2.1.state = .ERROR :=
  ⟨(initCamera_retry_spec failOracle 0 (fun _ => rfl)).2.2.1,
   (initCamera_retry_spec failOracle 0 (fun _ => rfl)).2.2.2.1⟩

/-- A non-empty frame delivered by the fake working device. -/
def goodFrame : Frame := [[(0, 0, 0)]]

/-- A fake `DeviceHandle` that always opens and always yields a
non-empty frame. -/
def goodDevice : DeviceOracle :=
  { opens := fun _ => true, testRead := fun _ _ => some goodFrame }

/-- Consumer operations on the manager: `acquire u` is
`initialize_camera(user_id=u)` against the fake working device,
`release u` is `unregister_user(u)`. -/
inductive COp where
  | acquire (u : String)
  | release (u : String)

/-- One consumer operation, with its ghost trace. -/
def copStepT (s : Mgr) : COp → Mgr × List Ev
  | .acquire u =>
    let r := initCamera goodDevice 0 (some u) s
    (r.2.1, r.2.2)
  | .release u =>
    (unregisterUser u s,
      if s.activeUsers.erase u = ∅ ∧ ¬ s.isReleasing then [.teardown] else [])

/-- One consumer operation, state only. -/
def copStep (s : Mgr) (op : COp) : Mgr := (copStepT s op).1

/-- Run a sequence of consumer operations from the fresh manager. -/
def runOps (ops : List COp) : Mgr := ops.foldl copStep Mgr.start

/-- Run a sequence of consumer operations, accumulating the trace. -/
def runOpsT (ops : List COp) : Mgr × List Ev :=
  ops.foldl (fun acc op =>
    ((copStepT acc.1 op).1, acc.2 ++ (copStepT acc.1 op).2)) (Mgr.start, [])

/-- The inductive invariant of the acquire/release protocol. -/
def MgrInv (s : Mgr) : Prop :=
  s.isReleasing = false ∧
  ((s.state = .CONNECTED ∧ s.capOpen = some true) ↔ s.activeUsers ≠ ∅) ∧
  (s.activeUsers = ∅ →
    s.state = .DISCONNECTED ∧ s.capOpen = none ∧ s.lastFrame = none ∧
      s.frameTimestamp = 0)

/-- Evaluation of `initialize_camera` against the fake working device:
already-connected managers are left as they are, every other
non-releasing manager comes out connected on the first attempt. -/
theorem initCamera_good (now : Nat) (u : String) (s : Mgr)
    (hrel : s.isReleasing = false) :
    (initCamera goodDevice now (some u) s).2.1 =
      if s.state = .CONNECTED ∧ s.capOpen = some true then registerUser u s
      else ⟨.CONNECTED, some true, some goodFrame, now,
        insert u s.activeUsers, false, s.enhancementEnabled⟩ := by
  obtain ⟨st, cap, lf, ts, au, ir, ee⟩ := s
  cases ir with
  | true => cases hrel
  | false =>
    by_cases h2 : st = .CONNECTED ∧ cap = some true
    · simp [initCamera, registerUser, h2]
    · simp [initCamera, initAttempts, maxInitAttempts, testCameraCapture,
        testCapLoop, goodDevice, goodFrame, Frame.size, registerUser,
        cleanupCameraResources, configureCameraProperties, h2]

/-- `MgrInv` holds initially. -/
theorem MgrInv_start : MgrInv Mgr.start := by
  refine ⟨rfl, ?_, fun _ => ⟨rfl, rfl, rfl, rfl⟩⟩
  simp [Mgr.start]

/-- `MgrInv` is preserved by every consumer operation. -/
theorem MgrInv_step (s : Mgr) (op : COp) (h : MgrInv s) : MgrInv (copStep s op) := by
  obtain ⟨hrel, hiff, hempty⟩ := h
  cases op with
  | acquire u =>
    have hg := initCamera_good 0 u s hrel
    by_cases h2 : s.state = .CONNECTED ∧ s.capOpen = some true
    · refine ⟨?_, ?_, ?_⟩ <;>
        simp [copStep, copStepT, hg, h2, registerUser, hrel]
    · refine ⟨?_, ?_, ?_⟩ <;> simp [copStep, copStepT, hg, h2]
  | release u =>
    by_cases hE : s.activeUsers.erase u = ∅
    · refine ⟨?_, ?_, ?_⟩ <;>
        simp [copStep, copStepT, unregisterUser, releaseCameraInternal,
          cleanupCameraResources, hE, hrel]
    · have hne : s.activeUsers ≠ ∅ := by
        intro hc
        exact hE (by simp [hc])
      have hcon := hiff.mpr hne
      refine ⟨?_, ?_, ?_⟩ <;>
        simp [copStep, copStepT, unregisterUser, hE, hrel, hcon.1, hcon.2]

/-- `MgrInv` holds after any run. -/
theorem runOps_inv (ops : List COp) : MgrInv (runOps ops) := by
  suffices h : ∀ s, MgrInv s → MgrInv (ops.foldl copStep s) from
    h Mgr.start MgrInv_start
  induction ops with
  | nil => exact fun s hs => hs
  | cons op rest ih =>
    intro s hs
    exact ih (copStep s op) (MgrInv_step s op hs)

/-- C1: after every sequence of acquire/release operations against a
fake working device, the device is open (state `CONNECTED` with a live
handle) iff the consumer set is non-empty; in particular when the set
transitions to empty the device has been released. -/
theorem camera_open_iff_consumers (ops : List COp) :
    ((runOps ops).state = .CONNECTED ∧ (runOps ops).capOpen = some true) ↔
      (runOps ops).activeUsers ≠ ∅ :=
  (runOps_inv ops).2.1

/-- On a reachable manager, releasing an id that is not registered
changes nothing. -/
theorem unregUser_not_mem (s : Mgr) (hInv : MgrInv s) (u : String)
    (hmem : u ∉ s.activeUsers) : unregisterUser u s = s := by
  obtain ⟨hrel, hiff, hempty⟩ := hInv
  obtain ⟨st, cap, lf, ts, au, ir, ee⟩ := s
  have hE : au.erase u = au := Finset.erase_eq_of_not_mem hmem
  by_cases hz : au = ∅
  · subst hz
    obtain ⟨h1, h2, h3, h4⟩ := hempty rfl
    simp only at h1 h2 h3 h4 hrel
    subst h1; subst h2; subst h3; subst h4; subst hrel
    simp [unregisterUser, releaseCameraInternal, cleanupCameraResources]
  · simp only at hrel
    subst hrel
    simp [unregisterUser, hE, hz]

/-- C6: releasing the last consumer tears the device down (state
`DISCONNECTED`) and clears the frame cache; releasing an id not in the
set is a no-op on every reachable manager; and in the two-consumer
scenario, after `acquire A, acquire B, release A` the device is still
open, after `release B` it is closed, with exactly one device open and
exactly one teardown over the whole run. -/
theorem release_semantics :
    (∀ (s : Mgr) (u : String), s.isReleasing = false →
      s.activeUsers.erase u = ∅ →
      (unregisterUser u s).state = .DISCONNECTED ∧
      (unregisterUser u s).capOpen = none ∧
      (unregisterUser u s).lastFrame = none ∧
      (unregisterUser u s).activeUsers = ∅) ∧
    (∀ (ops : List COp) (u : String), u ∉ (runOps ops).activeUsers →
      unregisterUser u (runOps ops) = runOps ops) ∧
    ((runOps [.acquire "A", .acquire "B", .release "A"]).state = .CONNECTED ∧
      (runOps [.acquire "A", .acquire "B", .release "A"]).capOpen = some true) ∧
    ((runOpsT [.acquire "A", .acquire "B", .release "A", .release "B"]).1.state =
        .DISCONNECTED ∧
      (runOpsT [.acquire "A", .acquire "B", .release "A",
        .release "B"]).1.capOpen = none ∧
      (runOpsT [.acquire "A", .acquire "B", .release "A",
        .release "B"]).1.activeUsers = ∅ ∧
      countCreate (runOpsT [.acquire "A", .acquire "B", .release "A",
        .release "B"]).2 = 1 ∧
      countTeardown (runOpsT [.acquire "A", .acquire "B", .release "A",
        .release "B"]).2 = 1) := by
  refine ⟨?_, ?_, ?_, ?_⟩
  · intro s u hrel hE
    have hcond : (s.activeUsers.erase u = ∅ ∧ ¬ s.isReleasing) := by
      exact ⟨hE, by simp [hrel]⟩
    simp [unregisterUser, hcond, releaseCameraInternal, cleanupCameraResources]
  · exact fun ops u hmem => unregUser_not_mem (runOps ops) (runOps_inv ops) u hmem
  · exact ⟨by decide, by decide⟩
  · exact ⟨by decide, by decide, by decide, by decide, by decide⟩

/-- Witness for `release_semantics` at a concrete connected one-consumer
manager and a concrete run. -/
theorem release_semantics_witness :
    (unregisterUser "X"
      ⟨.CONNECTED, some true, some goodFrame, 5, {"X"}, false, true⟩).state =
        .DISCONNECTED ∧
    unregisterUser "Z" (runOps [.acquire "A"]) = runOps [.acquire "A"] :=
  ⟨(release_semantics.1
      ⟨.CONNECTED, some true, some goodFrame, 5, {"X"}, false, true⟩ "X" rfl
      (by decide)).1,
   release_semantics.2.1 [.acquire "A"] "Z" (by decide)⟩

/-- An L,a,b pixel. -/
abbrev LabPix := Nat × Nat × Nat

/-- The OpenCV primitives used by `enhance_frame`, abstracted: the two
color conversions are per-pixel maps; CLAHE is a whole-image operation
on the lightness channel, parameterized by clip limit and tile grid. -/
structure EnhancePrims where
  bgr2lab : Pix → LabPix
  lab2bgr : LabPix → Pix
  clahe : ℚ → Nat × Nat → List (List Nat) → List (List Nat)

/-- `cv2.flip(frame, 1)`: horizontal mirror. -/
def cv2flip (f : Frame) : Frame := f.map List.reverse

/-- `cv2.split`'s first channel: the lightness plane of a LAB image. -/
def splitL (lab : List (List LabPix)) : List (List Nat) :=
  lab.map (fun row => row.map (·.1))

/-- `cv2.merge((cl, a, b))`: the lightness plane replaced by `cl`, the
`a`/`b` planes taken from the original LAB image. -/
def mergeL (cl : List (List Nat)) (lab : List (List LabPix)) :
    List (List LabPix) :=
  List.zipWith (fun clRow labRow =>
    List.zipWith (fun c p => (c, p.2.1, p.2.2)) clRow labRow) cl lab

/-- `enhance_frame` on a non-`None` frame: degenerate frames and
mid-release calls pass through; otherwise mirror, convert to LAB, CLAHE
the lightness channel with clip 2.0 and 8×8 tiles, merge, convert
back. -/
def enhanceFrameF (P : EnhancePrims) (isRel : Bool) (f : Frame) : Frame :=
  if f.size = 0 ∨ isRel then f
  else
    let lab := (cv2flip f).map (fun row => row.map P.bgr2lab)
    let cl := P.clahe 2 (8, 8) (splitL lab)
    (mergeL cl lab).map (fun row => row.map P.lab2bgr)

/-- `enhance_frame` including the `frame is None` passthrough. -/
def enhanceFrame (P : EnhancePrims) (isRel : Bool) (fr : Option Frame) :
    Option Frame :=
  fr.map (enhanceFrameF P isRel)

/-- Outcome of one `cap.read()`: a `(ret, frame)` pair or a raised
exception. -/
inductive ReadOutcome where
  | ok (ret : Bool) (frame : Option Frame)
  | exn
deriving DecidableEq

/-- Behaviour of the device during one `get_frame` call. -/
structure ReadOracle where
  read : Nat → ReadOutcome

/-- The `for _ in range(2)` read loop of `get_frame`: break on release or
on a failed read, keep the last `(ret, frame)`; an exception escapes to
the handler. -/
def readTwice (R : ReadOracle) (isRel : Bool) : Except Unit (Bool × Option Frame) :=
  if isRel then .ok (false, none)
  else
    match R.read 0 with
    | .exn => .error ()
    | .ok ret f =>
      if ret = false then .ok (ret, f)
      else
        match R.read 1 with
        | .exn => .error ()
        | .ok ret2 f2 => .ok (ret2, f2)

/-- `get_frame`: returns the new frame on a live read, else degrades to
the cached `last_frame` (a copy) or `None`.  Total by construction — the
embedding of "never raises". -/
def getFrame (R : ReadOracle) (P : EnhancePrims) (now : Nat) (s : Mgr) :
    Option Frame × Mgr :=
  if s.state ≠ .CONNECTED ∨ s.isReleasing = true then
    (if s.lastFrame.isSome ∧ s.isReleasing = false then s.lastFrame else none, s)
  else if s.capOpen ≠ some true ∨ s.isReleasing = true then
    (s.lastFrame, s)
  else
    match readTwice R s.isReleasing with
    | .error _ =>
      let s' := if s.isReleasing = false then { s with state := .ERROR } else s
      (if s.lastFrame.isSome ∧ s.isReleasing = false then s.lastFrame else none, s')
    | .ok (true, some f) =>
      if 0 < f.size ∧ s.isReleasing = false then
        let f' := if s.enhancementEnabled then enhanceFrameF P s.isReleasing f else f
        (some f', { s with lastFrame := some f', frameTimestamp := now })
      else
        (if s.lastFrame.isSome ∧ s.isReleasing = false then s.lastFrame else none, s)
    | .ok (true, none) =>
      (if s.lastFrame.isSome ∧ s.isReleasing = false then s.lastFrame else none, s)
    | .ok (false, _) =>
      (if s.lastFrame.isSome ∧ s.isReleasing = false then s.lastFrame else none, s)

/-- Identity OpenCV primitives, used for concrete evaluations. -/
def idPrims : EnhancePrims := ⟨fun p => p, fun p => p, fun _ _ l => l⟩

/-- The live read fails: not connected, handle gone, device exception,
`ret` false, `frame` `None`, or an empty frame. -/
def liveReadFails (R : ReadOracle) (s : Mgr) : Prop :=
  s.state ≠ .CONNECTED ∨ s.capOpen ≠ some true ∨
  readTwice R s.isReleasing = .error () ∨
  (∃ ret fo, readTwice R s.isReleasing = .ok (ret, fo) ∧
    (ret = false ∨ fo = none ∨ ∃ f, fo = some f ∧ f.size = 0))

/-- C2 (amended): `get_frame` never raises (it is a total function of
the manager and the device outcome); whenever the live read fails and no
release is in progress, it returns exactly the cached `last_frame` —
whatever its age — so `None` exactly when no prior frame exists. -/
theorem getFrame_fallback (R : ReadOracle) (P : EnhancePrims) (now : Nat)
    (s : Mgr) (hrel : s.isReleasing = false) (hfail : liveReadFails R s) :
    (getFrame R P now s).1 = s.lastFrame := by
  by_cases h1 : s.state = .CONNECTED
  · by_cases h2 : s.capOpen = some true
    · rcases hfail with h | h | h | h
      · exact absurd h1 h
      · exact absurd h2 h
      · rw [hrel] at h
        simp [getFrame, h1, h2, hrel, h]
        cases hl : s.lastFrame <;> simp
      · obtain ⟨ret, fo, heq, hbad⟩ := h
        rw [hrel] at heq
        rcases hbad with hb | hb | ⟨f, hf, hsz⟩
        · subst hb
          simp [getFrame, h1, h2, hrel, heq]
          cases hl : s.lastFrame <;> simp
        · subst hb
          cases ret <;>
            simp [getFrame, h1, h2, hrel, heq] <;>
            cases hl : s.lastFrame <;> simp
        · subst hf
          cases ret <;>
            simp [getFrame, h1, h2, hrel, heq, hsz] <;>
            cases hl : s.lastFrame <;> simp
    · simp [getFrame, h1, h2, hrel]
  · simp [getFrame, h1, hrel]
    cases hl : s.lastFrame <;> simp

/-- Witness for `getFrame_fallback`: a connected manager with a cached
frame whose device read reports `ret == False`. -/
theorem getFrame_fallback_witness :
    (getFrame ⟨fun _ => .ok false none⟩ idPrims 3
      ⟨.CONNECTED, some true, some goodFrame, 0, {"U"}, false, true⟩).1 =
      some goodFrame :=
  getFrame_fallback ⟨fun _ => .ok false none⟩ idPrims
    3 ⟨.CONNECTED, some true, some goodFrame, 0, {"U"}, false, true⟩ rfl
    (Or.inr (Or.inr (Or.inr ⟨false, none, rfl, Or.inl rfl⟩)))

/-- C2 counterexample to the staleness clause: with a cached frame of
timestamp 0 read at time 10⁹ (an age exceeding any staleness bound) and
a failing device, `get_frame` still returns the cached frame, not
`None`, and its result does not depend on the current time at all. -/
theorem getFrame_no_staleness_check :
    (getFrame ⟨fun _ => .ok false none⟩ idPrims
      1000000000 ⟨.CONNECTED, some true, some goodFrame, 0, {"U"}, false, true⟩).1 =
      some goodFrame ∧
    (getFrame ⟨fun _ => .ok false none⟩ idPrims
      1000000000 ⟨.CONNECTED, some true, some goodFrame, 0, {"U"}, false, true⟩).1 =
    (getFrame ⟨fun _ => .ok false none⟩ idPrims
      0 ⟨.CONNECTED, some true, some goodFrame, 0, {"U"}, false, true⟩).1 := by
  exact ⟨by decide, by decide⟩

/-- The enhancement pipeline as the spec words it (`Modelled from the
spec:` mirror then CLAHE-equivalent on the lightness channel with clip
2.0 and 8×8 tiles; degenerate input passes through unchanged), to be
compared with the source's `enhance_frame`. -/
def enhanceSpec (P : EnhancePrims) (fr : Option Frame) : Option Frame :=
  match fr with
  | none => none
  | some f =>
    if f.size = 0 then some f
    else
      let lab := (cv2flip f).map (fun row => row.map P.bgr2lab)
      some ((mergeL (P.clahe 2 (8, 8) (splitL lab)) lab).map
        (fun row => row.map P.lab2bgr))

/-- C9 counterexample: `enhance_frame` reads the shared `_is_releasing`
flag — on the same non-degenerate frame it returns the mirrored/CLAHE
result when the flag is clear but the input unchanged when the flag is
set, so it is not a pure function of its input frame alone. -/
theorem enhance_reads_shared_state :
    enhanceFrame idPrims true (some [[(1, 2, 3), (4, 5, 6)]]) ≠
      enhanceFrame idPrims false (some [[(1, 2, 3), (4, 5, 6)]]) := by
  decide

/-- C9 (amended): `enhance_frame` is a pure function of its input frame
and the manager's `_is_releasing` flag: with the flag clear it computes
exactly the spec pipeline (mirror, then CLAHE with clip 2.0 and 8×8
tiles on the lightness channel, degenerate input passed through); with
the flag set every frame passes through unchanged. -/
theorem enhanceFrame_matches_spec (P : EnhancePrims) (fr : Option Frame) :
    enhanceFrame P false fr = enhanceSpec P fr ∧
    (∀ f : Frame, f.size = 0 → enhanceFrame P false (some f) = some f) ∧
    (∀ f : Frame, enhanceFrame P true (some f) = some f) := by
  refine ⟨?_, ?_, ?_⟩
  · cases fr with
    | none => rfl
    | some f =>
      by_cases hsz : f.size = 0 <;>
        simp [enhanceFrame, enhanceFrameF, enhanceSpec, hsz]
  · intro f hsz
    simp [enhanceFrame, enhanceFrameF, hsz]
  · intro f
    simp [enhanceFrame, enhanceFrameF]

/-- Witness for `enhanceFrame_matches_spec` on the empty frame. -/
theorem enhanceFrame_matches_spec_witness :
    enhanceFrame idPrims false (some []) = some [] :=
  (enhanceFrame_matches_spec idPrims (some [])).2.1 [] rfl

/-- States of the recognition system (`SystemState` enum of
`recognition_screen.py`). -/
inductive SystemState where
  | INACTIVE
  | STARTING
  | ACTIVE
  | STOPPING
  | ERROR
deriving DecidableEq

/-- `max_camera_errors` from the screen's `__init__`. -/
def maxCameraErrors : Nat := 5

/-- `wait_for_finish`'s default bounded timeout, in milliseconds. -/
def stopWaitTimeoutMs : Nat := 3000

/-- The recognition screen's coordinator state.  `workers i = true` iff
the i-th spawned `RecognitionWorker`'s `run()` has not yet finished
(`isRunning`); `currentWorker` is the `self.recognition_worker`
reference.  `pendingResumeMs` is the scheduled
`QTimer.singleShot(500, _resume_after_camera_recovery)` delay. -/
structure Coord where
  systemState : SystemState
  currentFrame : Option Frame
  isClosing : Bool
  cameraErrorCount : Nat
  videoTimerOn : Bool
  recognitionTimerOn : Bool
  pendingResumeMs : Option Nat
  workers : List Bool
  currentWorker : Option Nat
deriving DecidableEq

/-- The coordinator state built by `__init__`. -/
def Coord.start : Coord :=
  ⟨.INACTIVE, none, false, 0, false, false, none, [], none⟩

/-- `isRunning()` of the i-th spawned worker (false when out of
range). -/
def wrun : List Bool → Nat → Bool
  | [], _ => false
  | b :: _, 0 => b
  | _ :: t, n+1 => wrun t n

/-- `trigger_recognition`: skip when not active, no frame, closing, or a
worker is still running; else drop the stale worker reference and spawn
a fresh running worker. -/
def triggerRecognition (c : Coord) : Coord :=
  if c.systemState ≠ .ACTIVE ∨ c.currentFrame = none ∨ c.isClosing then c
  else
    match c.currentWorker with
    | some i =>
      if wrun c.workers i then c
      else
        { c with workers := c.workers ++ [true],
                 currentWorker := some c.workers.length }
    | none =>
      { c with workers := c.workers ++ [true],
               currentWorker := some c.workers.length }

/-- `_handle_camera_error`, with the outcome of
`reinitialize_camera()` supplied; the returned flag records whether
reinitialization was invoked. -/
def handleCameraError (reinitOk : Bool) (c : Coord) : Coord × Bool :=
  if c.isClosing then (c, false)
  else
    let c1 := { c with cameraErrorCount := c.cameraErrorCount + 1 }
    if maxCameraErrors ≤ c1.cameraErrorCount then
      let wasActive := c1.systemState = .ACTIVE
      let c2 := if wasActive then
          { c1 with videoTimerOn := false, recognitionTimerOn := false }
        else c1
      if reinitOk then
        let c3 := { c2 with cameraErrorCount := 0 }
        (if wasActive ∧ c3.isClosing = false then
            { c3 with pendingResumeMs := some 500 }
          else c3, true)
      else
        ({ c2 with systemState := .ERROR }, true)
    else (c1, false)

/-- `_resume_after_camera_recovery`: restart both ticks when still
active and not closing. -/
def resumeAfterRecovery (c : Coord) : Coord :=
  if c.systemState = .ACTIVE ∧ c.isClosing = false then
    { c with videoTimerOn := true, recognitionTimerOn := true,
             pendingResumeMs := none }
  else c

/-- `update_video_display`, with the `get_frame` result supplied; the
flag records whether reinitialization was invoked this tick. -/
def updateVideoDisplay (gf : Option Frame) (reinitOk : Bool) (c : Coord) :
    Coord × Bool :=
  if c.systemState ≠ .ACTIVE ∨ c.isClosing then (c, false)
  else
    match gf with
    | some f => ({ c with cameraErrorCount := 0, currentFrame := some f }, false)
    | none => handleCameraError reinitOk c

/-- Coordinator events: a recognition tick, a successful video tick, a
worker's `run()` returning, Qt's `finished` signal, `start_recognition`
with a healthy camera, and `stop_recognition`. -/
inductive REv where
  | tick
  | frame (f : Frame)
  | complete (i : Nat)
  | finishedSig
  | startRec
  | stopRec

/-- One coordinator event.  `finishedSig` only fires for a worker whose
`run()` has returned (the Qt runtime guarantee); `stopRec` stops the
current worker (flag + bounded wait/terminate) and drops the
reference. -/
def rStep (c : Coord) : REv → Coord
  | .tick => triggerRecognition c
  | .frame f =>
    if c.systemState ≠ .ACTIVE ∨ c.isClosing then c
    else { c with cameraErrorCount := 0, currentFrame := some f }
  | .complete i => { c with workers := c.workers.set i false }
  | .finishedSig =>
    match c.currentWorker with
    | some i =>
      if c.isClosing = false ∧ wrun c.workers i = false then
        { c with currentWorker := none }
      else c
    | none => c
  | .startRec =>
    if c.isClosing then c
    else { c with systemState := .ACTIVE, cameraErrorCount := 0,
                  videoTimerOn := true, recognitionTimerOn := true }
  | .stopRec =>
    let c1 : Coord :=
      { c with
          systemState := .STOPPING
          videoTimerOn := false
          recognitionTimerOn := false }
    let c2 : Coord :=
      match c1.currentWorker with
      | some i =>
        { c1 with
            workers := c1.workers.set i false
            currentWorker := none }
      | none => c1
    { c2 with systemState := .INACTIVE }

/-- Run a sequence of coordinator events from the fresh screen. -/
def runR (evs : List REv) : Coord := evs.foldl rStep Coord.start

/-- The worker-pointer invariant: every running worker is the one
referenced by `self.recognition_worker`. -/
def WInv (c : Coord) : Prop :=
  ∀ i, wrun c.workers i = true → c.currentWorker = some i

theorem wrun_append_single (l : List Bool) (x : Bool) :
    ∀ i, wrun (l ++ [x]) i =
      if i < l.length then wrun l i
      else if i = l.length then x else false := by
  induction l with
  | nil => intro i; cases i <;> simp [wrun]
  | cons a t ih =>
    intro i
    cases i with
    | zero => simp [wrun]
    | succ n => simpa [wrun, Nat.succ_lt_succ_iff] using ih n

theorem wrun_set (l : List Bool) :
    ∀ i j x, wrun (l.set i x) j =
      if i = j ∧ j < l.length then x else wrun l j := by
  induction l with
  | nil => intro i j x; simp [wrun]
  | cons a t ih =>
    intro i j x
    cases i with
    | zero =>
      cases j with
      | zero => simp [wrun]
      | succ m => simp [wrun]
    | succ n =>
      cases j with
      | zero => simp [wrun]
      | succ m => simpa [wrun, Nat.succ_lt_succ_iff] using ih n m x

theorem wrun_out_of_range (l : List Bool) :
    ∀ i, ¬ i < l.length → wrun l i = false := by
  induction l with
  | nil => intro i _; cases i <;> rfl
  | cons a t ih =>
    intro i hi
    cases i with
    | zero => exact absurd (Nat.zero_lt_succ _) hi
    | succ n =>
      exact ih n (fun hlt => hi (Nat.succ_lt_succ hlt))

/-- Under the pointer invariant, if the reference is empty or points at a
worker that is not running, no worker is running at all. -/
theorem WInv_no_running (c : Coord) (h : WInv c)
    (hcase : c.currentWorker = none ∨
      ∃ i0, c.currentWorker = some i0 ∧ wrun c.workers i0 = false) :
    ∀ i, wrun c.workers i = false := by
  intro i
  cases hi : wrun c.workers i with
  | false => rfl
  | true =>
    have hcw := h i hi
    rcases hcase with hn | ⟨i0, hs, hr⟩
    · rw [hn] at hcw; cases hcw
    · rw [hs] at hcw
      injection hcw with he
      subst he
      rw [hi] at hr
      cases hr

/-- Spawning a worker into a fully idle pool restores the pointer
invariant. -/
theorem WInv_spawn (c : Coord) (h : ∀ i, wrun c.workers i = false) :
    WInv { c with workers := c.workers ++ [true],
                  currentWorker := some c.workers.length } := by
  intro i hi
  simp only [wrun_append_single] at hi
  split at hi
  · rw [h i] at hi; cases hi
  · split at hi
    · simp_all
    · cases hi

/-- Every coordinator event preserves the pointer invariant. -/
theorem WInv_step (c : Coord) (e : REv) (h : WInv c) : WInv (rStep c e) := by
  cases e with
  | tick =>
    by_cases hg : c.systemState ≠ .ACTIVE ∨ c.currentFrame = none ∨ c.isClosing
    · simpa [rStep, triggerRecognition, hg] using h
    · cases hcw : c.currentWorker with
      | some i0 =>
        cases hrun : wrun c.workers i0 with
        | true => simpa [rStep, triggerRecognition, hg, hcw, hrun] using h
        | false =>
          have hsp := WInv_spawn c (WInv_no_running c h (Or.inr ⟨i0, hcw, hrun⟩))
          simpa [rStep, triggerRecognition, hg, hcw, hrun] using hsp
      | none =>
        have hsp := WInv_spawn c (WInv_no_running c h (Or.inl hcw))
        simpa [rStep, triggerRecognition, hg, hcw] using hsp
  | frame f =>
    by_cases hg : c.systemState ≠ .ACTIVE ∨ c.isClosing <;>
      simpa [rStep, hg] using h
  | complete i =>
    intro j hj
    simp only [rStep] at hj ⊢
    rw [wrun_set] at hj
    split at hj
    · cases hj
    · exact h j hj
  | finishedSig =>
    cases hcw : c.currentWorker with
    | some i0 =>
      by_cases hgd : c.isClosing = false ∧ wrun c.workers i0 = false
      · have hidle := WInv_no_running c h (Or.inr ⟨i0, hcw, hgd.2⟩)
        intro j hj
        simp only [rStep, hcw, if_pos hgd] at hj
        rw [hidle j] at hj
        cases hj
      · intro j hj
        simp only [rStep, hcw, if_neg hgd] at hj ⊢
        have hcwj := h j hj
        rw [hcw] at hcwj
        exact hcwj
    | none =>
      intro j hj
      simp only [rStep, hcw] at hj ⊢
      have hcwj := h j hj
      rw [hcw] at hcwj
      exact hcwj
  | startRec =>
    by_cases hg : c.isClosing <;> simpa [rStep, hg] using h
  | stopRec =>
    cases hcw : c.currentWorker with
    | some i0 =>
      intro j hj
      simp only [rStep, hcw] at hj
      rw [wrun_set] at hj
      split at hj
      · cases hj
      · have hcwj := h j hj
        rw [hcw] at hcwj
        injection hcwj with he
        by_cases hlen : j < c.workers.length
        · rename_i hcond
          exact absurd ⟨he, hlen⟩ hcond
        · rw [wrun_out_of_range c.workers j hlen] at hj
          cases hj
    | none =>
      intro j hj
      simp only [rStep, hcw] at hj ⊢
      have hcwj := h j hj
      rw [hcw] at hcwj
      exact hcwj

/-- The pointer invariant holds after every event sequence. -/
theorem runR_WInv (evs : List REv) : WInv (runR evs) := by
  suffices hsuf : ∀ c, WInv c → WInv (evs.foldl rStep c) from
    hsuf Coord.start (by intro i hi; cases hi)
  induction evs with
  | nil => exact fun c hc => hc
  | cons e rest ih => exact fun c hc => ih (rStep c e) (WInv_step c e hc)

/-- C4: at most one recognition job is ever in flight — after any event
sequence, any two running workers are the same worker; and a tick that
arrives while the referenced worker is still running changes nothing (no
second worker is created). -/
theorem at_most_one_worker_in_flight :
    (∀ (evs : List REv) (i j : Nat),
      wrun (runR evs).workers i = true → wrun (runR evs).workers j = true →
        i = j) ∧
    (∀ (c : Coord) (i : Nat), c.currentWorker = some i →
      wrun c.workers i = true → rStep c .tick = c) := by
  constructor
  · intro evs i j hi hj
    have h := runR_WInv evs
    have h1 := h i hi
    have h2 := h j hj
    rw [h1] at h2
    injection h2
  · intro c i hcw hrun
    simp [rStep, triggerRecognition, hcw, hrun]

/-- Witness for `at_most_one_worker_in_flight`: a start/frame/tick run
spawning worker 0, and a concrete active coordinator whose running
worker makes a tick a no-op. -/
theorem at_most_one_worker_in_flight_witness :
    (0 : Nat) = 0 ∧
    rStep ⟨.ACTIVE, some goodFrame, false, 0, true, true, none, [true], some 0⟩
        .tick =
      ⟨.ACTIVE, some goodFrame, false, 0, true, true, none, [true], some 0⟩ :=
  ⟨at_most_one_worker_in_flight.1 [.startRec, .frame goodFrame, .tick] 0 0
      (by decide) (by decide),
   at_most_one_worker_in_flight.2
      ⟨.ACTIVE, some goodFrame, false, 0, true, true, none, [true], some 0⟩ 0
      rfl rfl⟩

/-- C8: when the consecutive-failure count reaches the threshold 5 on an
active, non-closing screen, the handler pauses both ticks and invokes
`reinitialize_camera`; on success it resets the count and schedules the
resume of both ticks after a 500 ms settle delay; on failure it moves to
`ERROR`, schedules nothing, and a later video tick is a strict no-op
that never invokes reinitialization again; below the threshold it only
increments the count. -/
theorem camera_error_backpressure (c : Coord)
    (hcl : c.isClosing = false) (hact : c.systemState = .ACTIVE)
    (hcnt : maxCameraErrors ≤ c.cameraErrorCount + 1) :
    (handleCameraError true c).2 = true ∧
    (handleCameraError false c).2 = true ∧
    (handleCameraError true c).1.cameraErrorCount = 0 ∧
    (handleCameraError true c).1.videoTimerOn = false ∧
    (handleCameraError true c).1.recognitionTimerOn = false ∧
    (handleCameraError true c).1.pendingResumeMs = some 500 ∧
    (resumeAfterRecovery (handleCameraError true c).1).videoTimerOn = true ∧
    (resumeAfterRecovery (handleCameraError true c).1).recognitionTimerOn =
      true ∧
    (handleCameraError false c).1.systemState = .ERROR ∧
    (handleCameraError false c).1.videoTimerOn = false ∧
    (handleCameraError false c).1.recognitionTimerOn = false ∧
    (handleCameraError false c).1.pendingResumeMs = c.pendingResumeMs ∧
    (∀ (gf : Option Frame) (r : Bool),
      updateVideoDisplay gf r (handleCameraError false c).1 =
        ((handleCameraError false c).1, false)) ∧
    (∀ (c' : Coord) (r : Bool), c'.isClosing = false →
      c'.cameraErrorCount + 1 < maxCameraErrors →
      (handleCameraError r c').1 =
        { c' with cameraErrorCount := c'.cameraErrorCount + 1 } ∧
      (handleCameraError r c').2 = false) := by
  refine ⟨?_, ?_, ?_, ?_, ?_, ?_, ?_, ?_, ?_, ?_, ?_, ?_, ?_, ?_⟩
  · simp [handleCameraError, hcl, hact, hcnt]
  · simp [handleCameraError, hcl, hact, hcnt]
  · simp [handleCameraError, hcl, hact, hcnt]
  · simp [handleCameraError, hcl, hact, hcnt]
  · simp [handleCameraError, hcl, hact, hcnt]
  · simp [handleCameraError, hcl, hact, hcnt]
  · simp [handleCameraError, resumeAfterRecovery, hcl, hact, hcnt]
  · simp [handleCameraError, resumeAfterRecovery, hcl, hact, hcnt]
  · simp [handleCameraError, hcl, hact, hcnt]
  · simp [handleCameraError, hcl, hact, hcnt]
  · simp [handleCameraError, hcl, hact, hcnt]
  · simp [handleCameraError, hcl, hact, hcnt]
  · intro gf r
    simp [updateVideoDisplay, handleCameraError, hcl, hact, hcnt]
  · intro c' r hc' hlt
    constructor <;> simp [handleCameraError, hc', Nat.not_le.mpr hlt]

/-- Witness for `camera_error_backpressure`: an active screen at failure
count 4 taking its fifth consecutive failure. -/
theorem camera_error_backpressure_witness :
    (handleCameraError true
      ⟨.ACTIVE, none, false, 4, true, true, none, [], none⟩).1.pendingResumeMs =
        some 500 ∧
    (handleCameraError false
      ⟨.ACTIVE, none, false, 4, true, true, none, [], none⟩).1.systemState =
        .ERROR :=
  ⟨(camera_error_backpressure ⟨.ACTIVE, none, false, 4, true, true, none, [], none⟩
      rfl rfl (by decide)).2.2.2.2.2.1,
   (camera_error_backpressure ⟨.ACTIVE, none, false, 4, true, true, none, [], none⟩
      rfl rfl (by decide)).2.2.2.2.2.2.2.2.1⟩

/-- Program locations of `RecognitionWorker.run`, one per cancellation
checkpoint. -/
inductive WLoc where
  | entry
  | chk0
  | chk1
  | chk2
  | preRecog
  | emitGuard
  | emitPt
  | finished
deriving DecidableEq

/-- Shared state of one recognition job and its coordinator during
cancellation: the worker's location and local `should_emit`, the shared
`_should_run` flag, whether the signals are still connected, whether an
emitted result sits in the delivery queue, whether the handler actually
processed a result, and the screen's system state. -/
structure CancelSt where
  loc : WLoc
  shouldRun : Bool
  shouldEmit : Bool
  connected : Bool
  queued : Bool
  handled : Bool
  sysState : SystemState
  frameSome : Bool
deriving DecidableEq

/-- The state when the job is submitted. -/
def CancelSt.start (frameSome : Bool) : CancelSt :=
  ⟨.entry, true, false, true, false, false, .ACTIVE, frameSome⟩

/-- One step of the worker thread through `run()`: every checkpoint
re-reads `_should_run` and bails out to `finished`; the emit guard
copies the flag into `should_emit`; the emit point queues the result
only if `should_emit` held and the signal is still connected. -/
def wStep (s : CancelSt) : CancelSt :=
  match s.loc with
  | .entry =>
    if s.shouldRun ∧ s.frameSome then { s with loc := .chk0 }
    else { s with loc := .finished }
  | .chk0 =>
    if s.shouldRun then { s with loc := .chk1 } else { s with loc := .finished }
  | .chk1 =>
    if s.shouldRun then { s with loc := .chk2 } else { s with loc := .finished }
  | .chk2 =>
    if s.shouldRun then { s with loc := .preRecog }
    else { s with loc := .finished }
  | .preRecog =>
    if s.shouldRun then { s with loc := .emitGuard }
    else { s with loc := .finished }
  | .emitGuard => { s with shouldEmit := s.shouldRun, loc := .emitPt }
  | .emitPt =>
    if s.shouldEmit ∧ s.connected then { s with queued := true, loc := .finished }
    else { s with loc := .finished }
  | .finished => s

/-- Interleaving events: a worker step; `stop_recognition` on the
control thread (`stop_worker` sets the flag and disconnects, then the
bounded wait of at most `stopWaitTimeoutMs`, then system state
`INACTIVE` — one event because the control thread delivers queued
results only after this call returns); and the delivery of a queued
result to `handle_recognition_result`, whose guard drops it unless the
system is still `ACTIVE`. -/
inductive CEv where
  | wstep
  | stop
  | deliver

/-- One interleaving event. -/
def cStep (s : CancelSt) : CEv → CancelSt
  | .wstep => wStep s
  | .stop =>
    { s with shouldRun := false, connected := false, sysState := .INACTIVE }
  | .deliver =>
    if s.queued then
      { s with queued := false,
               handled := s.handled || decide (s.sysState = .ACTIVE) }
    else s

/-- Run an interleaving from job submission. -/
def runC (fs : Bool) (evs : List CEv) : CancelSt :=
  evs.foldl cStep (CancelSt.start fs)

/-- A result can be queued or handled only once the worker has reached
`finished`. -/
def EmitFin (s : CancelSt) : Prop :=
  (s.queued = true ∨ s.handled = true) → s.loc = .finished

theorem EmitFin_step (s : CancelSt) (e : CEv) (h : EmitFin s) :
    EmitFin (cStep s e) := by
  cases e with
  | wstep =>
    intro hqh
    cases hl : s.loc with
    | finished =>
      simp only [cStep, wStep, hl]
    | emitPt =>
      simp only [cStep, wStep, hl]
      split <;> rfl
    | emitGuard =>
      simp only [cStep, wStep, hl] at hqh
      exact absurd (h (by simpa using hqh)) (by rw [hl]; decide)
    | entry =>
      simp only [cStep, wStep, hl] at hqh
      split at hqh <;>
        exact absurd (h (by simpa using hqh)) (by rw [hl]; decide)
    | chk0 =>
      simp only [cStep, wStep, hl] at hqh
      split at hqh <;>
        exact absurd (h (by simpa using hqh)) (by rw [hl]; decide)
    | chk1 =>
      simp only [cStep, wStep, hl] at hqh
      split at hqh <;>
        exact absurd (h (by simpa using hqh)) (by rw [hl]; decide)
    | chk2 =>
      simp only [cStep, wStep, hl] at hqh
      split at hqh <;>
        exact absurd (h (by simpa using hqh)) (by rw [hl]; decide)
    | preRecog =>
      simp only [cStep, wStep, hl] at hqh
      split at hqh <;>
        exact absurd (h (by simpa using hqh)) (by rw [hl]; decide)
  | stop =>
    intro hqh
    simp only [cStep] at hqh ⊢
    exact h hqh
  | deliver =>
    by_cases hq : s.queued = true
    · intro hqh
      simp only [cStep, hq, if_true] at hqh ⊢
      exact h (Or.inl hq)
    · intro hqh
      simp only [cStep, Bool.not_eq_true] at hqh ⊢
      rw [if_neg (by simp [Bool.not_eq_true] at hq; simp [hq])] at hqh ⊢
      exact h hqh

theorem EmitFin_run (fs : Bool) (evs : List CEv) : EmitFin (runC fs evs) := by
  suffices hsuf : ∀ s, EmitFin s → EmitFin (evs.foldl cStep s) from
    hsuf (CancelSt.start fs) (by intro hqh; simp [CancelSt.start] at hqh)
  induction evs with
  | nil => exact fun s hs => hs
  | cons e rest ih => exact fun s hs => ih (cStep s e) (EmitFin_step s e hs)

/-- The state established by a completed `stop_recognition` while
nothing was queued: flag down, disconnected, inactive, nothing queued or
handled. -/
def Stopped (s : CancelSt) : Prop :=
  s.shouldRun = false ∧ s.connected = false ∧ s.sysState = .INACTIVE ∧
  s.queued = false ∧ s.handled = false

theorem Stopped_step (s : CancelSt) (e : CEv) (h : Stopped s) :
    Stopped (cStep s e) := by
  obtain ⟨h1, h2, h3, h4, h5⟩ := h
  cases e with
  | wstep =>
    cases hl : s.loc <;>
      simp [cStep, wStep, hl, h1, h2, h3, h4, h5, Stopped]
  | stop => simp [cStep, Stopped, h4, h5]
  | deliver => simp [cStep, Stopped, h1, h2, h3, h4, h5]

theorem Stopped_fold (l : List CEv) :
    ∀ s, Stopped s → Stopped (l.foldl cStep s) := by
  induction l with
  | nil => exact fun s hs => hs
  | cons e rest ih => exact fun s hs => ih (cStep s e) (Stopped_step s e hs)

/-- C5: whenever `stop_recognition` runs while the worker has not yet
passed the emission point, then in every continuation no
`recognition_result` is ever queued or handled, the coordinator is
`INACTIVE` from the stop call on, and the stop's worker wait is bounded
by the 3000 ms timeout constant. -/
theorem cancelled_job_never_fires (fs : Bool) (l1 l2 : List CEv)
    (h : (runC fs l1).loc ≠ .finished) :
    (runC fs (l1 ++ .stop :: l2)).handled = false ∧
    (runC fs (l1 ++ .stop :: l2)).queued = false ∧
    (runC fs (l1 ++ .stop :: l2)).sysState = .INACTIVE ∧
    stopWaitTimeoutMs = 3000 := by
  have hq := EmitFin_run fs l1
  have hq0 : (runC fs l1).queued = false := by
    cases hv : (runC fs l1).queued with
    | false => rfl
    | true => exact absurd (hq (Or.inl hv)) h
  have hh0 : (runC fs l1).handled = false := by
    cases hv : (runC fs l1).handled with
    | false => rfl
    | true => exact absurd (hq (Or.inr hv)) h
  have hstop : Stopped (cStep (runC fs l1) .stop) := by
    refine ⟨rfl, rfl, rfl, ?_, ?_⟩ <;> simpa [cStep]
  have hdec : runC fs (l1 ++ .stop :: l2) =
      l2.foldl cStep (cStep (runC fs l1) .stop) := by
    simp [runC, List.foldl_append]
  have hfin := Stopped_fold l2 _ hstop
  rw [hdec]
  exact ⟨hfin.2.2.2.2, hfin.2.2.2.1, hfin.2.2.1, rfl⟩

/-- Witness for `cancelled_job_never_fires`: stop after two worker
steps (worker at the second checkpoint), then let the worker run on and
a delivery attempt drain the queue. -/
theorem cancelled_job_never_fires_witness :
    (runC true
      ([CEv.wstep, CEv.wstep] ++ CEv.stop ::
        [CEv.wstep, CEv.wstep, CEv.wstep, CEv.wstep, CEv.deliver])).handled =
      false :=
  (cancelled_job_never_fires true [CEv.wstep, CEv.wstep]
    [CEv.wstep, CEv.wstep, CEv.wstep, CEv.wstep, CEv.deliver]
    (by decide)).1

/-- The attribute names defined on `CameraManagerSingleton` instances:
class attributes, methods, and every instance attribute assigned in
`__init__`. -/
def cameraManagerAttrs : List String :=
  ["_instance", "_lock", "_initialized",
   "camera_index", "cap", "state", "frame_width", "frame_height", "fps",
   "_camera_lock", "last_frame", "frame_timestamp", "max_init_attempts",
   "_enhancement_enabled", "_quality_mode",
   "_is_releasing", "_active_users", "_user_lock",
   "register_user", "unregister_user", "has_active_users", "is_initialized",
   "_cleanup_camera_resources", "initialize_camera",
   "_configure_camera_properties", "_test_camera_capture", "get_frame",
   "enhance_frame", "is_camera_healthy", "reinitialize_camera",
   "_release_camera_internal", "force_release_camera", "reset_instance"]

/-- The manager's zero-argument teardown methods, by Python name. -/
def teardownMethodTable : List (String × (Mgr → Mgr)) :=
  [("force_release_camera", forceReleaseCamera),
   ("_release_camera_internal", releaseCameraInternal),
   ("_cleanup_camera_resources", cleanupCameraResources)]

/-- The camera-release block of the screens' `closeEvent`:
`try: self.camera_manager.release_camera() except: pass` — when the
attribute lookup fails, the `AttributeError` is swallowed and the
manager is left untouched. -/
def closeEventReleaseStep (s : Mgr) : Mgr :=
  match teardownMethodTable.lookup "release_camera" with
  | some f => f s
  | none => s

/-- C10: `CameraManagerSingleton` has no `release_camera` attribute, so
the screens' `closeEvent` call raises `AttributeError` (swallowed by the
surrounding `except`), and the consumer set, device state, and frame
cache are left unchanged — the per-consumer release never happens on
this path. -/
theorem release_camera_is_missing :
    "release_camera" ∉ cameraManagerAttrs ∧
    teardownMethodTable.lookup "release_camera" = none ∧
    ∀ s : Mgr, closeEventReleaseStep s = s := by
  refine ⟨by decide, rfl, fun s => rfl⟩

end FaceGuard
